import Mathlib

/-!
Verification of the background-removal app (`src/App.tsx`,
`src/services/geminiService.ts`) against its specification.

Strings from the JavaScript world are modelled as `List Char`; the helper
`str` converts a Lean string literal to that representation.
-/

set_option maxHeartbeats 1000000

namespace BgRemove

/-- Character list of a string literal (JS strings are modelled as `List Char`). -/
def str (s : String) : List Char := s.data

/-- JS `LineTerminator` characters, which the regex metacharacter `.` never
matches (the regex in `parseDataUrl` has no `s` flag). -/
def isLineTerminator (c : Char) : Bool :=
  c == '\n' || c == '\r' || c == '\u2028' || c == '\u2029'

/-- Whether a character list contains a JS line terminator. -/
def hasLT (l : List Char) : Bool := l.any isLineTerminator

/-- The literal `;base64,` of the regex `/^data:(.+);base64,(.+)$/`
in `src/services/geminiService.ts` (`parseDataUrl`). -/
def sep : List Char := str ";base64,"

/-- The literal `data:` of the regex `/^data:(.+);base64,(.+)$/`. -/
def urlHead : List Char := str "data:"

/-- Matching of `(.+);base64,(.+)$` on a line-terminator-free list, with the
greedy (leftmost-longest) semantics of the JS regex engine: the first capture
backtracks from the right, so the chosen occurrence of `;base64,` is the
RIGHTMOST one that still leaves a nonempty remainder for the second capture.
Returns `some (A, B)` where the input is `A ++ sep ++ B` with `B ≠ []` and
`A` as long as possible; `A` may be empty here (the caller rejects that). -/
def splitLastSep : List Char → Option (List Char × List Char)
  | [] => none
  | c :: rest =>
    match splitLastSep rest with
    | some (a, b) => some (c :: a, b)
    | none =>
      if sep.isPrefixOf (c :: rest) && !(List.drop 8 (c :: rest)).isEmpty then
        some ([], List.drop 8 (c :: rest))
      else
        none

/-- Embedding of `parseDataUrl` from `src/services/geminiService.ts`:
`dataUrl.match(/^data:(.+);base64,(.+)$/)`, returning
`some (mimeType, base64Data)` on a match (capture 1 and capture 2) and
`none` where the code throws `Error("Invalid data URL format")`.
JS `.` matches no line terminator, so a match forces the part after
`data:` to be line-terminator free. -/
def parseDataUrl (s : List Char) : Option (List Char × List Char) :=
  if urlHead.isPrefixOf s && !hasLT (List.drop 5 s) then
    match splitLastSep (List.drop 5 s) with
    | some (mt, b64) => if !mt.isEmpty then some (mt, b64) else none
    | none => none
  else
    none

/-- Base64 alphabet (claim-side notion of a base64 payload character). -/
def isBase64Char (c : Char) : Bool :=
  c.isAlphanum || c == '+' || c == '/' || c == '='

/-- Claim-side notion: a base64 payload is a nonempty run of base64 characters. -/
def isBase64Payload (p : List Char) : Bool :=
  !p.isEmpty && p.all isBase64Char

/-- Characters that can occur in a media type (letters, digits, and the
punctuation of type/subtype names and parameters); a media type never
contains a comma or a line terminator. -/
def isMediaTypeChar (c : Char) : Bool :=
  c.isAlphanum || c == '/' || c == '-' || c == '.' || c == '+' || c == ';' ||
    c == '=' || c == '_'

/-- Claim-side notion: a media type is a nonempty run of media-type characters. -/
def isMediaType (t : List Char) : Bool :=
  !t.isEmpty && t.all isMediaTypeChar

example : parseDataUrl (str "data:image/png;base64,QUJD") =
    some (str "image/png", str "QUJD") := by decide
example : parseDataUrl (str "data:a;base64,b;base64,c") =
    some (str "a;base64,b", str "c") := by decide
example : parseDataUrl (str "data:a;base64,b;base64,") =
    some (str "a", str "b;base64,") := by decide
example : parseDataUrl (str "data:;base64,QUJD") = none := by decide
example : parseDataUrl (str "data:image/png;base64,") = none := by decide
example : parseDataUrl (str "hello") = none := by decide

/-! Embedding of `removeImageBackground` from `src/services/geminiService.ts`.
The remote call `ai.models.generateContent` is an awaited external request;
its outcome (a parsed response, or a thrown error) is a parameter of the
model. Everything after the `await` follows the source line by line. -/

/-- Inline payload of a response content part (the `data` and `mimeType`
fields of `part.inlineData`; only `data` is read by the code). -/
structure InlineData where
  data : List Char
  deriving DecidableEq

/-- A content part of the remote response: `inlineData` is present on image
parts and absent (`undefined`) on text parts. -/
structure Part where
  inlineData : Option InlineData
  deriving DecidableEq

/-- Content of a response candidate (`candidate.content`). -/
structure Content where
  parts : List Part
  deriving DecidableEq

/-- One response candidate: `content.parts` and the optional `finishReason`. -/
structure Candidate where
  content : Content
  finishReason : Option (List Char)
  deriving DecidableEq

/-- The remote response object: `response.candidates`. -/
structure GenerateResponse where
  candidates : List Candidate
  deriving DecidableEq

/-- Outcome of the awaited `ai.models.generateContent` call:
either a response object, a thrown `Error` carrying a message, or a thrown
non-`Error` value (which has no message the catch block could read). -/
inductive RemoteOutcome where
  | success (resp : GenerateResponse)
  | failure (msg : List Char)
  | failureNonError
  deriving DecidableEq

/-- The distinct failure exits of `removeImageBackground`, one constructor
per throw site in `src/services/geminiService.ts`:
`formatError` is the `Invalid data URL format` throw in `parseDataUrl`
(raised before the try block); `typeError` is the implicit JS `TypeError`
of `response.candidates[0].content` when `candidates` is empty;
`contentPolicy` is the `Processing was stopped due to: ...` throw;
`noOutput` is the `No image data found in the API response.` throw;
`transport` is an `Error` thrown by the remote call itself;
`unknown` is the non-`Error` foreign throw handled by the final `throw` of
the catch block. -/
inductive GsError where
  | formatError
  | typeError
  | contentPolicy (finishReason : Option (List Char))
  | noOutput
  | transport (msg : List Char)
  | unknown
  deriving DecidableEq

/-- The message of the `Error` raised at each throw site, before the catch
block wraps it (template literals interpolate a missing `finishReason` as
the text `undefined`). -/
def GsError.message : GsError → List Char
  | .formatError => str "Invalid data URL format"
  | .typeError =>
      str "Cannot read properties of undefined (reading 'content')"
  | .contentPolicy r =>
      str "Processing was stopped due to: " ++
        (r.getD (str "undefined") ++ str ". Please try a different image.")
  | .noOutput => str "No image data found in the API response."
  | .transport m => m
  | .unknown => str "An unknown error occurred while communicating with the API."

/-- The `for (const part of response.candidates[0].content.parts)` loop:
return the `inlineData` of the first part that has one. -/
def firstInlineData : List Part → Option InlineData
  | [] => none
  | p :: rest =>
    match p.inlineData with
    | some d => some d
    | none => firstInlineData rest

/-- The response-handling section of the try block: scan the first
candidate's parts for an inline payload; failing that, throw the
finish-reason error when `finishReason !== 'STOP'`, else the no-output
error. An empty `candidates` list makes `response.candidates[0].content`
a JS `TypeError`. -/
def extractFromResponse (resp : GenerateResponse) : Except GsError (List Char) :=
  match resp.candidates with
  | [] => .error .typeError
  | c :: _ =>
    match firstInlineData c.content.parts with
    | some d => .ok d.data
    | none =>
      if c.finishReason ≠ some (str "STOP") then .error (.contentPolicy c.finishReason)
      else .error .noOutput

/-- Kinded embedding of `removeImageBackground`: which exit is taken, before
the catch block turns the error into a message string. `parseDataUrl` runs
before the try block; the remote call and the response handling run inside it. -/
def removeImageBackgroundE (dataUrl : List Char) (remote : RemoteOutcome) :
    Except GsError (List Char) :=
  match parseDataUrl dataUrl with
  | none => .error .formatError
  | some _ =>
    match remote with
    | .success resp => extractFromResponse resp
    | .failure m => .error (.transport m)
    | .failureNonError => .error .unknown

/-- Embedding of `removeImageBackground` at the level of observable results:
`.ok` is the returned base64 string; `.error` is the message of the thrown
`Error`. The catch block re-throws every `Error` raised inside the try block
with its message prefixed by `API Error: `; a non-`Error` foreign throw is
replaced by the fixed unknown-error message; the `Invalid data URL format`
throw happens before the try block and is not wrapped. -/
def removeImageBackground (dataUrl : List Char) (remote : RemoteOutcome) :
    Except (List Char) (List Char) :=
  match parseDataUrl dataUrl with
  | none => .error (str "Invalid data URL format")
  | some _ =>
    match remote with
    | .success resp =>
      match extractFromResponse resp with
      | .ok d => .ok d
      | .error e => .error (str "API Error: " ++ e.message)
    | .failure m => .error (str "API Error: " ++ m)
    | .failureNonError =>
      .error (str "An unknown error occurred while communicating with the API.")

/-! Embedding of the presentation shell `src/App.tsx`. -/

/-- UI state of the shell (`type AppState` in `src/App.tsx`). -/
inductive AppState where
  | idle
  | processing
  | success
  | error
  deriving DecidableEq

/-- The four pieces of React state of the `App` component. -/
structure AppModel where
  originalImage : Option (List Char)
  processedImage : Option (List Char)
  appState : AppState
  errorMessage : List Char
  deriving DecidableEq

/-- A selected or dropped file; only its declared media type (`file.type`)
is inspected by `App.tsx`. Its contents are reflected in the outcome of the
`fileToDataUrl` encoding step, which is a parameter of `processFile`. -/
structure JsFile where
  type : List Char
  deriving DecidableEq

/-- Embedding of `processFile` from `src/App.tsx`. `encode` is the outcome
of the awaited `fileToDataUrl(file)` call (`src/utils/fileUtils.ts`, not part
of the reviewed sources): `.ok dataUrl` on resolution, `.error m` for a
rejection with an `Error` whose message is `m`. `remote` is the outcome of
the network call inside `removeImageBackground`. The returned `AppModel` is
the React state after the handler settles. -/
def processFile (st : AppModel) (file : JsFile)
    (encode : Except (List Char) (List Char)) (remote : RemoteOutcome) :
    AppModel :=
  if !(str "image/").isPrefixOf file.type then
    { st with errorMessage := str "Please upload a valid image file.",
              appState := .error }
  else
    let st1 : AppModel :=
      { st with appState := .processing, processedImage := none,
                errorMessage := [] }
    match encode with
    | .error m =>
      { st1 with errorMessage := str "Failed to process image. " ++ m,
                 appState := .error, originalImage := none }
    | .ok dataUrl =>
      let st2 : AppModel := { st1 with originalImage := some dataUrl }
      match removeImageBackground dataUrl remote with
      | .ok resultBase64 =>
        { st2 with
            processedImage := some (str "data:image/png;base64," ++ resultBase64),
            appState := .success }
      | .error m =>
        { st2 with errorMessage := str "Failed to process image. " ++ m,
                   appState := .error, originalImage := none }

/-- Whether the network request (`ai.models.generateContent`) is reached
during `processFile`: control arrives there exactly when the file type
passes the `image/` check, `fileToDataUrl` resolves, and `parseDataUrl`
succeeds (its throw happens before the request is issued). -/
def networkAttempted (file : JsFile)
    (encode : Except (List Char) (List Char)) : Bool :=
  (str "image/").isPrefixOf file.type &&
    match encode with
    | .error _ => false
    | .ok dataUrl => (parseDataUrl dataUrl).isSome

/-- Embedding of `handleReset` from `src/App.tsx`. -/
def handleReset (st : AppModel) : AppModel :=
  { st with originalImage := none, processedImage := none,
            appState := .idle, errorMessage := [] }

/-- Whether a processing attempt fails: the file type fails the `image/`
check, or the encode step rejects, or `removeImageBackground` throws
(for a malformed data URL, a transport failure, or a payload-free
response). -/
def attemptFails (f : JsFile) (encode : Except (List Char) (List Char))
    (remote : RemoteOutcome) : Bool :=
  !(str "image/").isPrefixOf f.type ||
    (match encode with
     | .error _ => true
     | .ok dataUrl =>
       match removeImageBackground dataUrl remote with
       | .error _ => true
       | .ok _ => false)

/-! Character-class facts used to pin down the regex captures. -/

theorem mediaTypeChar_ne_comma {c : Char} (h : isMediaTypeChar c = true) :
    c ≠ ',' := by
  intro hc
  subst hc
  exact absurd h (by decide)

theorem mediaTypeChar_not_lt {c : Char} (h : isMediaTypeChar c = true) :
    isLineTerminator c = false := by
  cases hl : isLineTerminator c with
  | false => rfl
  | true =>
    exfalso
    simp only [isLineTerminator, Bool.or_eq_true, beq_iff_eq] at hl
    rcases hl with ((h1 | h1) | h1) | h1 <;> subst h1 <;> exact absurd h (by decide)

theorem base64Char_ne_comma {c : Char} (h : isBase64Char c = true) : c ≠ ',' := by
  intro hc
  subst hc
  exact absurd h (by decide)

theorem base64Char_not_lt {c : Char} (h : isBase64Char c = true) :
    isLineTerminator c = false := by
  cases hl : isLineTerminator c with
  | false => rfl
  | true =>
    exfalso
    simp only [isLineTerminator, Bool.or_eq_true, beq_iff_eq] at hl
    rcases hl with ((h1 | h1) | h1) | h1 <;> subst h1 <;> exact absurd h (by decide)

/-! Properties of `splitLastSep`, the model of the backtracking search for
the separator `;base64,`. -/

theorem sep_isPrefixOf_false_of_head {c : Char} (rest : List Char)
    (hc : c ≠ ';') : sep.isPrefixOf (c :: rest) = false := by
  cases hp : sep.isPrefixOf (c :: rest) with
  | false => rfl
  | true =>
    exfalso
    obtain ⟨t, ht⟩ := List.isPrefixOf_iff_prefix.mp hp
    have hsep : sep = ';' :: str "base64," := rfl
    rw [hsep, List.cons_append] at ht
    exact hc (List.cons.injEq .. ▸ ht).1.symm

theorem splitLastSep_cons_none {c : Char} {rest : List Char}
    (h1 : splitLastSep rest = none)
    (h2 : sep.isPrefixOf (c :: rest) = false) :
    splitLastSep (c :: rest) = none := by
  simp [splitLastSep, h1, h2]

theorem splitLastSep_cons_some {c : Char} {rest a b : List Char}
    (h : splitLastSep rest = some (a, b)) :
    splitLastSep (c :: rest) = some (c :: a, b) := by
  simp [splitLastSep, h]

theorem splitLastSep_cons_hit {c : Char} {rest : List Char}
    (h1 : splitLastSep rest = none)
    (h2 : sep.isPrefixOf (c :: rest) = true)
    (h3 : (List.drop 8 (c :: rest)).isEmpty = false) :
    splitLastSep (c :: rest) = some ([], List.drop 8 (c :: rest)) := by
  rw [splitLastSep, h1, h2, h3]
  rfl

theorem splitLastSep_no_comma {l : List Char} (h : ',' ∉ l) :
    splitLastSep l = none := by
  induction l with
  | nil => rfl
  | cons c rest ih =>
    have hrest : ',' ∉ rest := fun hm => h (List.mem_cons_of_mem _ hm)
    have hpre : sep.isPrefixOf (c :: rest) = false := by
      cases hp : sep.isPrefixOf (c :: rest) with
      | false => rfl
      | true =>
        have hsub := List.isPrefixOf_iff_prefix.mp hp
        exact absurd (hsub.subset (by decide : ',' ∈ sep)) h
    exact splitLastSep_cons_none (ih hrest) hpre

theorem splitLastSep_tail_append {B : List Char} (hB : ',' ∉ B) :
    splitLastSep (str "base64," ++ B) = none := by
  have h0 : splitLastSep B = none := splitLastSep_no_comma hB
  have h1 : splitLastSep (',' :: B) = none :=
    splitLastSep_cons_none h0 (sep_isPrefixOf_false_of_head _ (by decide))
  have h2 : splitLastSep ('4' :: ',' :: B) = none :=
    splitLastSep_cons_none h1 (sep_isPrefixOf_false_of_head _ (by decide))
  have h3 : splitLastSep ('6' :: '4' :: ',' :: B) = none :=
    splitLastSep_cons_none h2 (sep_isPrefixOf_false_of_head _ (by decide))
  have h4 : splitLastSep ('e' :: '6' :: '4' :: ',' :: B) = none :=
    splitLastSep_cons_none h3 (sep_isPrefixOf_false_of_head _ (by decide))
  have h5 : splitLastSep ('s' :: 'e' :: '6' :: '4' :: ',' :: B) = none :=
    splitLastSep_cons_none h4 (sep_isPrefixOf_false_of_head _ (by decide))
  have h6 : splitLastSep ('a' :: 's' :: 'e' :: '6' :: '4' :: ',' :: B) = none :=
    splitLastSep_cons_none h5 (sep_isPrefixOf_false_of_head _ (by decide))
  have h7 : splitLastSep ('b' :: 'a' :: 's' :: 'e' :: '6' :: '4' :: ',' :: B) =
      none :=
    splitLastSep_cons_none h6 (sep_isPrefixOf_false_of_head _ (by decide))
  exact h7

theorem splitLastSep_sep_append {B : List Char} (hB : ',' ∉ B) (hne : B ≠ []) :
    splitLastSep (sep ++ B) = some ([], B) := by
  have htail : splitLastSep (str "base64," ++ B) = none :=
    splitLastSep_tail_append hB
  have hpre : sep.isPrefixOf (';' :: (str "base64," ++ B)) = true :=
    List.isPrefixOf_iff_prefix.mpr ⟨B, rfl⟩
  have hdrop : List.drop 8 (';' :: (str "base64," ++ B)) = B :=
    @List.drop_left' Char sep B 8 (by decide)
  have hBe : B.isEmpty = false := by
    cases hb : B.isEmpty with
    | false => rfl
    | true => exact absurd (List.isEmpty_iff.mp hb) hne
  have h3 : (List.drop 8 (';' :: (str "base64," ++ B))).isEmpty = false := by
    rw [hdrop]
    exact hBe
  have hhit := splitLastSep_cons_hit htail hpre h3
  rw [hdrop] at hhit
  exact hhit

theorem splitLastSep_exact {A B : List Char} (hA : ',' ∉ A) (hB : ',' ∉ B)
    (hne : B ≠ []) : splitLastSep ((A ++ sep) ++ B) = some (A, B) := by
  induction A with
  | nil => simpa using splitLastSep_sep_append hB hne
  | cons c A' ih =>
    have hA' : ',' ∉ A' := fun hm => hA (List.mem_cons_of_mem _ hm)
    have hrec := ih hA'
    have hstep : splitLastSep (c :: ((A' ++ sep) ++ B)) = some (c :: A', B) :=
      splitLastSep_cons_some hrec
    simpa [List.cons_append] using hstep

theorem splitLastSep_sound {l a b : List Char}
    (h : splitLastSep l = some (a, b)) : l = (a ++ sep) ++ b ∧ b ≠ [] := by
  induction l generalizing a b with
  | nil => simp [splitLastSep] at h
  | cons c rest ih =>
    rw [splitLastSep] at h
    cases hrec : splitLastSep rest with
    | some ab =>
      obtain ⟨a', b'⟩ := ab
      rw [hrec] at h
      simp only [Option.some.injEq, Prod.mk.injEq] at h
      obtain ⟨ha, hb⟩ := h
      obtain ⟨hrest, hbne⟩ := ih hrec
      subst ha
      subst hb
      refine ⟨?_, hbne⟩
      rw [hrest]
      rfl
    | none =>
      rw [hrec] at h
      by_cases hcond :
          (sep.isPrefixOf (c :: rest) && !(List.drop 8 (c :: rest)).isEmpty) = true
      · rw [if_pos hcond] at h
        simp only [Bool.and_eq_true] at hcond
        obtain ⟨hpre, hdropne⟩ := hcond
        obtain ⟨t, ht⟩ := List.isPrefixOf_iff_prefix.mp hpre
        have hdrop : List.drop 8 (c :: rest) = t := by
          rw [← ht]
          exact List.drop_left' (by decide)
        simp only [Option.some.injEq, Prod.mk.injEq] at h
        obtain ⟨ha, hb⟩ := h
        subst ha
        refine ⟨?_, ?_⟩
        · rw [← hb, hdrop, ← ht]
          simp
        · rw [← hb, hdrop]
          intro hteq
          subst hteq
          rw [hdrop] at hdropne
          simp at hdropne
      · rw [if_neg hcond] at h
        exact absurd h (by simp)

/-! Properties of `parseDataUrl` itself. -/

theorem hasLT_eq_false {l : List Char}
    (h : ∀ c ∈ l, isLineTerminator c = false) : hasLT l = false := by
  rw [hasLT, List.any_eq_false]
  intro x hx
  rw [h x hx]
  simp

theorem parseDataUrl_roundtrip {T P : List Char} (hT : isMediaType T = true)
    (hP : isBase64Payload P = true) :
    parseDataUrl (str "data:" ++ T ++ str ";base64," ++ P) = some (T, P) := by
  simp only [isMediaType, Bool.and_eq_true] at hT
  obtain ⟨hTne, hTall⟩ := hT
  simp only [isBase64Payload, Bool.and_eq_true] at hP
  obtain ⟨hPne, hPall⟩ := hP
  have hTa := List.all_eq_true.mp hTall
  have hPa := List.all_eq_true.mp hPall
  have hTc : ',' ∉ T := fun hm => mediaTypeChar_ne_comma (hTa _ hm) rfl
  have hPc : ',' ∉ P := fun hm => base64Char_ne_comma (hPa _ hm) rfl
  have hPne' : P ≠ [] := by
    intro h0
    subst h0
    simp at hPne
  have hTne' : T.isEmpty = false := by
    cases h0 : T.isEmpty with
    | false => rfl
    | true => rw [h0] at hTne; simp at hTne
  have hsplit : splitLastSep ((T ++ sep) ++ P) = some (T, P) :=
    splitLastSep_exact hTc hPc hPne'
  have hs : str "data:" ++ T ++ str ";base64," ++ P =
      urlHead ++ ((T ++ sep) ++ P) := by
    simp [urlHead, sep, List.append_assoc]
  have hpre : urlHead.isPrefixOf (urlHead ++ ((T ++ sep) ++ P)) = true :=
    List.isPrefixOf_iff_prefix.mpr (List.prefix_append _ _)
  have hdrop : List.drop 5 (urlHead ++ ((T ++ sep) ++ P)) = (T ++ sep) ++ P :=
    List.drop_left' (by decide)
  have hlt : hasLT ((T ++ sep) ++ P) = false := by
    apply hasLT_eq_false
    intro c hc
    rcases List.mem_append.mp hc with hc1 | hc2
    · rcases List.mem_append.mp hc1 with hcT | hcS
      · exact mediaTypeChar_not_lt (hTa _ hcT)
      · exact (by decide : ∀ c ∈ sep, isLineTerminator c = false) _ hcS
    · exact base64Char_not_lt (hPa _ hc2)
  rw [hs]
  unfold parseDataUrl
  rw [hdrop, hpre, hlt, hsplit]
  simp [hTne']

theorem parseDataUrl_some_sound {s t p : List Char}
    (h : parseDataUrl s = some (t, p)) :
    t ≠ [] ∧ p ≠ [] ∧ s = str "data:" ++ t ++ str ";base64," ++ p := by
  unfold parseDataUrl at h
  by_cases hcond : (urlHead.isPrefixOf s && !hasLT (List.drop 5 s)) = true
  · rw [if_pos hcond] at h
    simp only [Bool.and_eq_true] at hcond
    obtain ⟨hpre, -⟩ := hcond
    obtain ⟨r, hr⟩ := List.isPrefixOf_iff_prefix.mp hpre
    have hdrop : List.drop 5 s = r := by
      rw [← hr]
      exact List.drop_left' (by decide)
    cases hsp : splitLastSep (List.drop 5 s) with
    | none => rw [hsp] at h; exact absurd h (by simp)
    | some mtb =>
      obtain ⟨mt, b64⟩ := mtb
      rw [hsp] at h
      have h' : (if !mt.isEmpty then some (mt, b64) else none) = some (t, p) := h
      by_cases hmt : (!mt.isEmpty) = true
      · rw [if_pos hmt] at h'
        simp only [Option.some.injEq, Prod.mk.injEq] at h'
        obtain ⟨hmt_eq, hb_eq⟩ := h'
        subst hmt_eq
        subst hb_eq
        obtain ⟨hsplit, hbne⟩ := splitLastSep_sound hsp
        refine ⟨?_, hbne, ?_⟩
        · intro h0
          subst h0
          simp at hmt
        · have hr2 : r = (mt ++ sep) ++ b64 := by rw [← hdrop]; exact hsplit
          rw [← hr, hr2]
          simp [urlHead, sep, List.append_assoc]
      · rw [if_neg hmt] at h'
        exact absurd h' (by simp)
  · rw [if_neg hcond] at h
    exact absurd h (by simp)

theorem splitLastSep_append_sep {T : List Char} (hT : ',' ∉ T) :
    splitLastSep (T ++ sep) = none := by
  induction T with
  | nil => decide
  | cons c T' ih =>
    have hT' : ',' ∉ T' := fun hm => hT (List.mem_cons_of_mem _ hm)
    have hc : c ≠ ',' := fun hc0 => hT (hc0 ▸ List.mem_cons_self _ _)
    have hrec := ih hT'
    have hpre : sep.isPrefixOf (c :: (T' ++ sep)) = false := by
      cases hp : sep.isPrefixOf (c :: (T' ++ sep)) with
      | false => rfl
      | true =>
        exfalso
        obtain ⟨t, ht⟩ := List.isPrefixOf_iff_prefix.mp hp
        have htake : sep = List.take 8 (c :: (T' ++ sep)) := by
          rw [← ht]
          exact (List.take_left' (by decide)).symm
        have hmem : ',' ∈ List.take 8 (c :: (T' ++ sep)) := by
          rw [← htake]
          decide
        rw [List.take_succ_cons, List.take_append_eq_append_take] at hmem
        rcases List.mem_cons.mp hmem with h0 | h0
        · exact hc h0.symm
        · rcases List.mem_append.mp h0 with h1 | h1
          · exact hT' (List.take_subset _ _ h1)
          · have hk : 7 - T'.length ≤ 7 := by omega
            exact (by decide :
              ∀ k, k ≤ 7 → (',' ∈ List.take k sep) → False) _ hk h1
    have := splitLastSep_cons_none hrec hpre
    simpa using this

theorem parseDataUrl_none_of_no_shape {s : List Char}
    (h : ¬ ∃ T P : List Char, T ≠ [] ∧ P ≠ [] ∧
      s = str "data:" ++ T ++ str ";base64," ++ P) :
    parseDataUrl s = none := by
  cases hp : parseDataUrl s with
  | none => rfl
  | some tp =>
    obtain ⟨t, p⟩ := tp
    obtain ⟨ht, hpne, hs⟩ := parseDataUrl_some_sound hp
    exact absurd ⟨t, p, ht, hpne, hs⟩ h

/-! Properties of the response scan in `removeImageBackground`. -/

theorem firstInlineData_eq_none {l : List Part}
    (h : ∀ p ∈ l, p.inlineData = none) : firstInlineData l = none := by
  induction l with
  | nil => rfl
  | cons p rest ih =>
    simp only [firstInlineData, h p (List.mem_cons_self _ _)]
    exact ih fun q hq => h q (List.mem_cons_of_mem _ hq)

theorem firstInlineData_spec {l : List Part}
    (h : ∃ p ∈ l, p.inlineData.isSome = true) :
    ∃ pre q post d, l = pre ++ q :: post ∧ (∀ x ∈ pre, x.inlineData = none) ∧
      q.inlineData = some d ∧ firstInlineData l = some d := by
  induction l with
  | nil =>
    obtain ⟨p, hp, -⟩ := h
    exact absurd hp (List.not_mem_nil p)
  | cons p rest ih =>
    cases hpd : p.inlineData with
    | some d =>
      refine ⟨[], p, rest, d, rfl, ?_, hpd, ?_⟩
      · intro x hx
        exact absurd hx (List.not_mem_nil x)
      · simp only [firstInlineData, hpd]
    | none =>
      have hrest : ∃ q ∈ rest, q.inlineData.isSome = true := by
        obtain ⟨q, hq, hqs⟩ := h
        rcases List.mem_cons.mp hq with rfl | hq'
        · rw [hpd] at hqs
          simp at hqs
        · exact ⟨q, hq', hqs⟩
      obtain ⟨pre, q, post, d, hl, hpre, hq, hfirst⟩ := ih hrest
      refine ⟨p :: pre, q, post, d, ?_, ?_, hq, ?_⟩
      · rw [hl]
        rfl
      · intro x hx
        rcases List.mem_cons.mp hx with rfl | hx'
        · exact hpd
        · exact hpre x hx'
      · simp only [firstInlineData, hpd, hfirst]

/-! The claims. -/

/-- C1: for every input string of the exact form `data:T;base64,P` — `T` a
media type, `P` a base64 payload — `parseDataUrl` returns the pair `(T, P)`
unchanged; and for every string that does not have the shape
`data:<nonempty>;base64,<nonempty>`, it fails, so `removeImageBackground`
throws `Invalid data URL format`. -/
theorem claim_C1 :
    (∀ T P : List Char, isMediaType T = true → isBase64Payload P = true →
      parseDataUrl (str "data:" ++ T ++ str ";base64," ++ P) = some (T, P)) ∧
    (∀ s : List Char,
      (¬ ∃ T P : List Char, T ≠ [] ∧ P ≠ [] ∧
        s = str "data:" ++ T ++ str ";base64," ++ P) →
      parseDataUrl s = none ∧
      ∀ remote, removeImageBackground s remote =
        .error (str "Invalid data URL format")) := by
  constructor
  · intro T P hT hP
    exact parseDataUrl_roundtrip hT hP
  · intro s hs
    have hnone := parseDataUrl_none_of_no_shape hs
    refine ⟨hnone, fun remote => ?_⟩
    unfold removeImageBackground
    rw [hnone]

theorem claim_C1_witness :
    parseDataUrl (str "data:" ++ str "image/png" ++ str ";base64," ++
        str "QUJD") =
      some (str "image/png", str "QUJD") ∧
    parseDataUrl (str "hello") = none := by
  constructor
  · exact claim_C1.1 (str "image/png") (str "QUJD") (by decide) (by decide)
  · refine (claim_C1.2 (str "hello") ?_).1
    rintro ⟨T, P, hT, hP, hs⟩
    have hlen := congrArg List.length hs
    rw [List.length_append, List.length_append, List.length_append] at hlen
    have e1 : (str "hello").length = 5 := rfl
    have e2 : (str "data:").length = 5 := rfl
    have e3 : (str ";base64,").length = 8 := rfl
    rw [e1, e2, e3] at hlen
    have hPlen : 0 < P.length := List.length_pos.mpr hP
    omega

/-- C8: `parseDataUrl` rejects the data-URL shapes with an empty media-type
part or an empty payload part — `data:;base64,P`, `data:T;base64,` and
`data:;base64,` — because both regex captures require at least one
character. -/
theorem claim_C8 (T P : List Char) (hT : isMediaType T = true)
    (hP : isBase64Payload P = true) :
    parseDataUrl (str "data:;base64," ++ P) = none ∧
    parseDataUrl (str "data:" ++ T ++ str ";base64,") = none ∧
    parseDataUrl (str "data:;base64,") = none := by
  simp only [isMediaType, Bool.and_eq_true] at hT
  obtain ⟨hTne, hTall⟩ := hT
  simp only [isBase64Payload, Bool.and_eq_true] at hP
  obtain ⟨hPne, hPall⟩ := hP
  have hTa := List.all_eq_true.mp hTall
  have hPa := List.all_eq_true.mp hPall
  have hTc : ',' ∉ T := fun hm => mediaTypeChar_ne_comma (hTa _ hm) rfl
  have hPc : ',' ∉ P := fun hm => base64Char_ne_comma (hPa _ hm) rfl
  have hPne' : P ≠ [] := by
    intro h0
    subst h0
    simp at hPne
  refine ⟨?_, ?_, by decide⟩
  · have hs : str "data:;base64," ++ P = urlHead ++ (sep ++ P) := by
      simp [urlHead, sep, str]
    have hpre : urlHead.isPrefixOf (urlHead ++ (sep ++ P)) = true :=
      List.isPrefixOf_iff_prefix.mpr (List.prefix_append _ _)
    have hdrop : List.drop 5 (urlHead ++ (sep ++ P)) = sep ++ P :=
      List.drop_left' (by decide)
    have hlt : hasLT (sep ++ P) = false := by
      apply hasLT_eq_false
      intro c hc
      rcases List.mem_append.mp hc with hc1 | hc2
      · exact (by decide : ∀ c ∈ sep, isLineTerminator c = false) _ hc1
      · exact base64Char_not_lt (hPa _ hc2)
    have hsplit : splitLastSep (sep ++ P) = some ([], P) :=
      splitLastSep_sep_append hPc hPne'
    rw [hs]
    unfold parseDataUrl
    rw [hdrop, hpre, hlt, hsplit]
    simp
  · have hs : str "data:" ++ T ++ str ";base64," = urlHead ++ (T ++ sep) := by
      simp [urlHead, sep, str, List.append_assoc]
    have hpre : urlHead.isPrefixOf (urlHead ++ (T ++ sep)) = true :=
      List.isPrefixOf_iff_prefix.mpr (List.prefix_append _ _)
    have hdrop : List.drop 5 (urlHead ++ (T ++ sep)) = T ++ sep :=
      List.drop_left' (by decide)
    have hlt : hasLT (T ++ sep) = false := by
      apply hasLT_eq_false
      intro c hc
      rcases List.mem_append.mp hc with hc1 | hc2
      · exact mediaTypeChar_not_lt (hTa _ hc1)
      · exact (by decide : ∀ c ∈ sep, isLineTerminator c = false) _ hc2
    have hsplit : splitLastSep (T ++ sep) = none :=
      splitLastSep_append_sep hTc
    rw [hs]
    unfold parseDataUrl
    rw [hdrop, hpre, hlt, hsplit]
    rfl

theorem claim_C8_witness :
    parseDataUrl (str "data:;base64," ++ str "QUJD") = none ∧
    parseDataUrl (str "data:" ++ str "image/png" ++ str ";base64,") = none ∧
    parseDataUrl (str "data:;base64,") = none :=
  claim_C8 (str "image/png") (str "QUJD") (by decide) (by decide)

/-- C2: a response whose first candidate has no inline payload in its
content parts and whose finish reason is a value other than `STOP` makes
`removeImageBackground` fail through the content-policy throw site, with a
message carrying that finish reason verbatim (then wrapped by the catch
block's `API Error: ` prefix). -/
theorem claim_C2 (du : List Char) (hdu : (parseDataUrl du).isSome = true)
    (resp : GenerateResponse) (c : Candidate) (rest : List Candidate)
    (hc : resp.candidates = c :: rest)
    (hparts : ∀ p ∈ c.content.parts, p.inlineData = none)
    (reason : List Char) (hfr : c.finishReason = some reason)
    (hne : reason ≠ str "STOP") :
    removeImageBackgroundE du (.success resp) =
      .error (.contentPolicy (some reason)) ∧
    removeImageBackground du (.success resp) =
      .error (str "API Error: " ++ (str "Processing was stopped due to: " ++
        (reason ++ str ". Please try a different image."))) := by
  obtain ⟨x, hx⟩ := Option.isSome_iff_exists.mp hdu
  have hfirst : firstInlineData c.content.parts = none :=
    firstInlineData_eq_none hparts
  have hcond : some reason ≠ some (str "STOP") := by
    intro h0
    exact hne (Option.some.injEq .. ▸ h0)
  have hextract : extractFromResponse resp =
      .error (.contentPolicy (some reason)) := by
    unfold extractFromResponse
    rw [hc]
    simp only [hfirst, hfr]
    rw [if_pos hcond]
  constructor
  · unfold removeImageBackgroundE
    rw [hx]
    exact hextract
  · unfold removeImageBackground
    rw [hx]
    simp only [hextract]
    rfl

theorem claim_C2_witness :
    removeImageBackgroundE (str "data:image/png;base64,QUJD")
        (.success ⟨[⟨⟨[⟨none⟩]⟩, some (str "SAFETY")⟩]⟩) =
      .error (.contentPolicy (some (str "SAFETY"))) ∧
    removeImageBackground (str "data:image/png;base64,QUJD")
        (.success ⟨[⟨⟨[⟨none⟩]⟩, some (str "SAFETY")⟩]⟩) =
      .error (str "API Error: " ++ (str "Processing was stopped due to: " ++
        (str "SAFETY" ++ str ". Please try a different image."))) := by
  refine claim_C2 (str "data:image/png;base64,QUJD") (by decide)
    ⟨[⟨⟨[⟨none⟩]⟩, some (str "SAFETY")⟩]⟩
    ⟨⟨[⟨none⟩]⟩, some (str "SAFETY")⟩ [] rfl ?_ (str "SAFETY") rfl (by decide)
  intro p hp
  rcases List.mem_cons.mp hp with rfl | h0
  · rfl
  · exact absurd h0 (List.not_mem_nil p)

/-- C3: a response whose first candidate has no inline payload in its
content parts and whose finish reason equals `STOP` makes
`removeImageBackground` fail through the no-output throw site — not the
content-policy one. -/
theorem claim_C3 (du : List Char) (hdu : (parseDataUrl du).isSome = true)
    (resp : GenerateResponse) (c : Candidate) (rest : List Candidate)
    (hc : resp.candidates = c :: rest)
    (hparts : ∀ p ∈ c.content.parts, p.inlineData = none)
    (hfr : c.finishReason = some (str "STOP")) :
    removeImageBackgroundE du (.success resp) = .error .noOutput ∧
    (∀ r, removeImageBackgroundE du (.success resp) ≠
      .error (.contentPolicy r)) ∧
    removeImageBackground du (.success resp) =
      .error (str "API Error: " ++ str "No image data found in the API response.") := by
  obtain ⟨x, hx⟩ := Option.isSome_iff_exists.mp hdu
  have hfirst : firstInlineData c.content.parts = none :=
    firstInlineData_eq_none hparts
  have hextract : extractFromResponse resp = .error .noOutput := by
    unfold extractFromResponse
    rw [hc]
    simp only [hfirst, hfr]
    rw [if_neg (by simp)]
  have hE : removeImageBackgroundE du (.success resp) = .error .noOutput := by
    unfold removeImageBackgroundE
    rw [hx]
    exact hextract
  refine ⟨hE, ?_, ?_⟩
  · intro r h0
    rw [hE] at h0
    simp at h0
  · unfold removeImageBackground
    rw [hx]
    simp only [hextract]
    rfl

theorem claim_C3_witness :
    removeImageBackgroundE (str "data:image/png;base64,QUJD")
        (.success ⟨[⟨⟨[⟨none⟩]⟩, some (str "STOP")⟩]⟩) = .error .noOutput := by
  refine (claim_C3 (str "data:image/png;base64,QUJD") (by decide)
    ⟨[⟨⟨[⟨none⟩]⟩, some (str "STOP")⟩]⟩
    ⟨⟨[⟨none⟩]⟩, some (str "STOP")⟩ [] rfl ?_ rfl).1
  intro p hp
  rcases List.mem_cons.mp hp with rfl | h0
  · rfl
  · exact absurd h0 (List.not_mem_nil p)

/-- C4: a response whose first candidate's content parts include at least
one part with an inline payload makes `removeImageBackground` succeed with
exactly the data of the first such part, the parts being scanned in order
(every part before it has no inline payload). -/
theorem claim_C4 (du : List Char) (hdu : (parseDataUrl du).isSome = true)
    (resp : GenerateResponse) (c : Candidate) (rest : List Candidate)
    (hc : resp.candidates = c :: rest)
    (hex : ∃ p ∈ c.content.parts, p.inlineData.isSome = true) :
    ∃ pre q post d, c.content.parts = pre ++ q :: post ∧
      (∀ x ∈ pre, x.inlineData = none) ∧ q.inlineData = some d ∧
      removeImageBackground du (.success resp) = .ok d.data := by
  obtain ⟨x, hx⟩ := Option.isSome_iff_exists.mp hdu
  obtain ⟨pre, q, post, d, hl, hpre, hq, hfirst⟩ := firstInlineData_spec hex
  refine ⟨pre, q, post, d, hl, hpre, hq, ?_⟩
  have hextract : extractFromResponse resp = .ok d.data := by
    unfold extractFromResponse
    rw [hc]
    simp only [hfirst]
  unfold removeImageBackground
  rw [hx]
  simp only [hextract]

theorem claim_C4_witness :
    ∃ pre q post d,
      (⟨[⟨none⟩, ⟨some ⟨str "Zm9v"⟩⟩, ⟨some ⟨str "YmFy"⟩⟩]⟩ : Content).parts =
        pre ++ q :: post ∧
      (∀ x ∈ pre, x.inlineData = none) ∧ q.inlineData = some d ∧
      removeImageBackground (str "data:image/png;base64,QUJD")
        (.success ⟨[⟨⟨[⟨none⟩, ⟨some ⟨str "Zm9v"⟩⟩, ⟨some ⟨str "YmFy"⟩⟩]⟩,
          some (str "STOP")⟩]⟩) = .ok d.data := by
  refine claim_C4 (str "data:image/png;base64,QUJD") (by decide)
    ⟨[⟨⟨[⟨none⟩, ⟨some ⟨str "Zm9v"⟩⟩, ⟨some ⟨str "YmFy"⟩⟩]⟩, some (str "STOP")⟩]⟩
    ⟨⟨[⟨none⟩, ⟨some ⟨str "Zm9v"⟩⟩, ⟨some ⟨str "YmFy"⟩⟩]⟩, some (str "STOP")⟩
    [] rfl ?_
  exact ⟨⟨some ⟨str "Zm9v"⟩⟩, by simp, rfl⟩

/-- C10: a failure raised inside the try block — the payload-free response
throws (content policy and no output), the empty-candidates type error, and
a transport error alike — surfaces with its message prefixed by
`API Error: `, whereas a malformed data URL throws `Invalid data URL
format` with no such prefix, because `parseDataUrl` runs before the try
block. -/
theorem claim_C10 :
    (∀ (du : List Char) (remote : RemoteOutcome), parseDataUrl du = none →
      removeImageBackgroundE du remote = .error .formatError ∧
      removeImageBackground du remote = .error (str "Invalid data URL format") ∧
      (str "API Error: ").isPrefixOf (str "Invalid data URL format") = false) ∧
    (∀ (du : List Char) (remote : RemoteOutcome) (e : GsError),
      removeImageBackgroundE du remote = .error e →
      e ≠ .formatError → e ≠ .unknown →
      removeImageBackground du remote =
        .error (str "API Error: " ++ e.message)) := by
  constructor
  · intro du remote hnone
    refine ⟨?_, ?_, by decide⟩
    · unfold removeImageBackgroundE
      rw [hnone]
    · unfold removeImageBackground
      rw [hnone]
  · intro du remote e hE hf hu
    unfold removeImageBackgroundE at hE
    unfold removeImageBackground
    cases hp : parseDataUrl du with
    | none =>
      rw [hp] at hE
      simp only [Except.error.injEq] at hE
      exact absurd hE.symm hf
    | some v =>
      rw [hp] at hE
      cases remote with
      | success resp =>
        have hex : extractFromResponse resp = .error e := hE
        simp only [hex]
      | failure m =>
        simp only [Except.error.injEq] at hE
        rw [← hE]
        rfl
      | failureNonError =>
        simp only [Except.error.injEq] at hE
        exact absurd hE.symm hu

theorem claim_C10_witness :
    removeImageBackground (str "hello") (.failure (str "x")) =
      .error (str "Invalid data URL format") ∧
    removeImageBackground (str "data:image/png;base64,QUJD")
        (.failure (str "boom")) =
      .error (str "API Error: " ++ (GsError.transport (str "boom")).message) := by
  constructor
  · exact (claim_C10.1 (str "hello") (.failure (str "x")) (by decide)).2.1
  · exact claim_C10.2 (str "data:image/png;base64,QUJD")
      (.failure (str "boom")) (.transport (str "boom")) rfl
      (by decide) (by decide)

/-- C5: a file whose declared media type does not start with `image/` takes
the local rejection branch of `processFile`: the state becomes `error` with
the fixed message `Please upload a valid image file.`, and the network
request inside `removeImageBackground` is never reached. -/
theorem claim_C5 (st : AppModel) (f : JsFile)
    (encode : Except (List Char) (List Char)) (remote : RemoteOutcome)
    (h : (str "image/").isPrefixOf f.type = false) :
    (processFile st f encode remote).appState = AppState.error ∧
    (processFile st f encode remote).errorMessage =
      str "Please upload a valid image file." ∧
    networkAttempted f encode = false := by
  unfold processFile networkAttempted
  rw [h]
  simp

theorem claim_C5_witness :
    (processFile ⟨none, none, AppState.idle, []⟩ ⟨str "text/plain"⟩
        (.ok (str "unused")) .failureNonError).appState = AppState.error ∧
    (processFile ⟨none, none, AppState.idle, []⟩ ⟨str "text/plain"⟩
        (.ok (str "unused")) .failureNonError).errorMessage =
      str "Please upload a valid image file." ∧
    networkAttempted ⟨str "text/plain"⟩ (.ok (str "unused")) = false :=
  claim_C5 ⟨none, none, AppState.idle, []⟩ ⟨str "text/plain"⟩
    (.ok (str "unused")) .failureNonError (by decide)

/-- C6 counterexample: from a state whose original-image reference is set
(reachable: the `success` state after a completed run), selecting a file
whose type is not `image/...` takes the local rejection path of
`processFile`, which ends in the `error` state with the original-image
reference still set — not reset to null as the claim states. -/
theorem claim_C6_counterexample :
    (processFile
        ⟨some (str "data:image/png;base64,QUJD"), some (str "old"),
          AppState.success, []⟩
        ⟨str "text/plain"⟩ (.ok (str "unused")) .failureNonError).appState =
      AppState.error ∧
    (processFile
        ⟨some (str "data:image/png;base64,QUJD"), some (str "old"),
          AppState.success, []⟩
        ⟨str "text/plain"⟩ (.ok (str "unused")) .failureNonError).originalImage =
      some (str "data:image/png;base64,QUJD") := by
  constructor
  · rfl
  · rfl

/-- C6 amended: every failing processing attempt ends in the `error` state;
the failures that reach the try block (encode rejection, malformed data
URL, transport or response failure) reset the original-image reference to
null, while the local rejection of a non-image file leaves the
original-image reference unchanged. -/
theorem claim_C6_amended (st : AppModel) (f : JsFile)
    (encode : Except (List Char) (List Char)) (remote : RemoteOutcome)
    (h : attemptFails f encode remote = true) :
    (processFile st f encode remote).appState = AppState.error ∧
    (processFile st f encode remote).originalImage =
      (if (str "image/").isPrefixOf f.type then none else st.originalImage) := by
  by_cases hp : (str "image/").isPrefixOf f.type = true
  · rw [if_pos hp]
    unfold attemptFails at h
    rw [hp] at h
    simp only [Bool.not_true, Bool.false_or] at h
    cases encode with
    | error m =>
      unfold processFile
      rw [hp]
      simp
    | ok du =>
      cases hrib : removeImageBackground du remote with
      | ok b =>
        simp [hrib] at h
      | error m =>
        unfold processFile
        rw [hp]
        simp [hrib]
  · rw [Bool.not_eq_true] at hp
    rw [if_neg (by simp [hp])]
    unfold processFile
    rw [hp]
    simp

theorem claim_C6_amended_witness :
    (processFile ⟨some (str "keep"), none, AppState.success, []⟩
        ⟨str "text/plain"⟩ (.ok (str "u")) .failureNonError).appState =
      AppState.error ∧
    (processFile ⟨some (str "keep"), none, AppState.success, []⟩
        ⟨str "text/plain"⟩ (.ok (str "u")) .failureNonError).originalImage =
      (if (str "image/").isPrefixOf (str "text/plain") then none
       else some (str "keep")) :=
  claim_C6_amended ⟨some (str "keep"), none, AppState.success, []⟩
    ⟨str "text/plain"⟩ (.ok (str "u")) .failureNonError (by decide)

/-- C7: `handleReset` — reachable from the `success` and `error` states,
where the footer button is rendered — always returns the state to `idle`
with both image references null and the error text empty. -/
theorem claim_C7 (st : AppModel)
    (_h : st.appState = AppState.success ∨ st.appState = AppState.error) :
    handleReset st = ⟨none, none, AppState.idle, []⟩ :=
  rfl

theorem claim_C7_witness :
    handleReset ⟨some (str "a"), some (str "b"), AppState.success,
        str "oops"⟩ = ⟨none, none, AppState.idle, []⟩ :=
  claim_C7 ⟨some (str "a"), some (str "b"), AppState.success, str "oops"⟩
    (Or.inl rfl)

/-- C9: whenever `processFile` ends in the `success` state, the
processed-image reference is the fixed prefix `data:image/png;base64,`
followed by the base64 string returned by the service — for every uploaded
file, whatever its media type. -/
theorem claim_C9 (st : AppModel) (f : JsFile)
    (encode : Except (List Char) (List Char)) (remote : RemoteOutcome)
    (h : (processFile st f encode remote).appState = AppState.success) :
    ∃ du b, encode = .ok du ∧ removeImageBackground du remote = .ok b ∧
      (processFile st f encode remote).processedImage =
        some (str "data:image/png;base64," ++ b) := by
  by_cases hp : (str "image/").isPrefixOf f.type = true
  · cases encode with
    | error m =>
      exfalso
      unfold processFile at h
      rw [hp] at h
      simp at h
    | ok du =>
      cases hrib : removeImageBackground du remote with
      | error m =>
        exfalso
        unfold processFile at h
        rw [hp] at h
        simp [hrib] at h
      | ok b =>
        refine ⟨du, b, rfl, hrib, ?_⟩
        unfold processFile
        rw [hp]
        simp [hrib]
  · exfalso
    rw [Bool.not_eq_true] at hp
    unfold processFile at h
    rw [hp] at h
    simp at h

theorem claim_C9_witness :
    ∃ du b, (.ok (str "data:image/jpeg;base64,QUJD") :
        Except (List Char) (List Char)) = .ok du ∧
      removeImageBackground du
        (.success ⟨[⟨⟨[⟨some ⟨str "Zm9v"⟩⟩]⟩, some (str "STOP")⟩]⟩) = .ok b ∧
      (processFile ⟨none, none, AppState.idle, []⟩ ⟨str "image/jpeg"⟩
          (.ok (str "data:image/jpeg;base64,QUJD"))
          (.success ⟨[⟨⟨[⟨some ⟨str "Zm9v"⟩⟩]⟩, some (str "STOP")⟩]⟩)).processedImage =
        some (str "data:image/png;base64," ++ b) :=
  claim_C9 ⟨none, none, AppState.idle, []⟩ ⟨str "image/jpeg"⟩
    (.ok (str "data:image/jpeg;base64,QUJD"))
    (.success ⟨[⟨⟨[⟨some ⟨str "Zm9v"⟩⟩]⟩, some (str "STOP")⟩]⟩) rfl

end BgRemove
